import Mathlib

/-!
# Verification of the Cloud Assist Investigations demo

The repository ships a demo kit (a deliberately leaking Express service in
`app.js`, provisioning scripts, and a chat-notification client).  Its
specification defines, in addition, the abstract Investigation Engine that the
demo exercises: an Observation Store, a Signal Correlator, a Hypothesis Ranker
and an Investigation Controller.  The engine has no implementation in the
repository, so it is modelled here from the specification; the web service
`app.js` is embedded from its source.
-/

namespace InvestigationEngine

/-- Modelled from the spec: the observation `type` enumeration
(`structured-input`, `text-description`, `metric-snapshot`, `log-excerpt`). -/
inductive ObservationType
  | structuredInput
  | textDescription
  | metricSnapshot
  | logExcerpt
deriving DecidableEq, Repr

/-- Modelled from the spec: the `observer` enumeration
(`user`, `automated-detector`, `system`). -/
inductive Observer
  | user
  | automatedDetector
  | system
deriving DecidableEq, Repr

/-- Modelled from the spec: one unit of evidence.  Timestamps are abstracted
to natural numbers (seconds). -/
structure Observation where
  id : Nat
  otype : ObservationType
  observer : Observer
  timestamp : Nat
  payload : String
  resources : List String
deriving DecidableEq, Repr

/-- Modelled from the spec: finding severity (`info|warning|critical`). -/
inductive Severity
  | info
  | warning
  | critical
deriving DecidableEq, Repr

/-- Modelled from the spec: anomaly classes a finding can report; the fixed
rule table of the ranker is keyed on these together with severity. -/
inductive FindingType
  | memoryLimitExceeded
  | cpuThrottling
  | restartLoop
  | configMismatch
  | dependencyFailure
  | exceptionSpike
deriving DecidableEq, Repr

/-- Modelled from the spec: a correlator-produced fact linking observations
to a detected anomaly on a resource. -/
structure Finding where
  ftype : FindingType
  severity : Severity
  resource : String
  timestamp : Nat
  sourceObs : List Nat
deriving DecidableEq, Repr

/-- Modelled from the spec: a ranked causal explanation.  `confidence` is a
rational in [0, 1]. -/
structure Hypothesis where
  statement : String
  confidence : ℚ
  supportingFindings : List Finding
  recommendedActions : List String
deriving DecidableEq, Repr

/-- Modelled from the spec: the error taxonomy of §7. -/
inductive EngineError
  | validationError
  | invalidStateError
  | correlationError
  | rankingError
  | timeoutError
  | cancelled
deriving DecidableEq, Repr

/-- Modelled from the spec: the investigation lifecycle states of §4.3. -/
inductive InvState
  | created
  | correlating
  | ranking
  | completed
  | error
deriving DecidableEq, Repr

/-- Modelled from the spec: the aggregate root owned by the Controller. -/
structure Investigation where
  id : Nat
  title : String
  state : InvState
  observations : List Observation
  findings : List Finding
  degraded : Bool
  failedSources : List String
  hypotheses : List Hypothesis
  createdAt : Nat
  updatedAt : Nat
  errorCause : Option EngineError
deriving DecidableEq, Repr

/-! ## Hypothesis Ranker (§4.4) -/

/-- Modelled from the spec: the four inferred causal categories. -/
inductive Category
  | resourceExhaustion
  | configurationError
  | externalDependencyFailure
  | codeDefect
deriving DecidableEq, Repr

/-- Modelled from the spec: the fixed rule table keyed on finding `type` and
severity combinations, assigning each finding a causal category. -/
def classify (f : Finding) : Category :=
  match f.ftype, f.severity with
  | .memoryLimitExceeded, _ => .resourceExhaustion
  | .cpuThrottling, _ => .resourceExhaustion
  | .restartLoop, .critical => .resourceExhaustion
  | .restartLoop, _ => .codeDefect
  | .configMismatch, _ => .configurationError
  | .dependencyFailure, _ => .externalDependencyFailure
  | .exceptionSpike, _ => .codeDefect

/-- Modelled from the spec: calibrated base score per category. -/
def baseScore : Category → ℚ
  | .resourceExhaustion => 3 / 5
  | .configurationError => 1 / 2
  | .externalDependencyFailure => 9 / 20
  | .codeDefect => 2 / 5

/-- Modelled from the spec: human-readable cause statement per category. -/
def categoryStatement : Category → String
  | .resourceExhaustion => "Resource exhaustion on the affected service"
  | .configurationError => "Configuration error on the affected service"
  | .externalDependencyFailure => "External dependency failure"
  | .codeDefect => "Code defect in the affected service"

/-- Modelled from the spec: recommended remediations per category. -/
def categoryActions : Category → List String
  | .resourceExhaustion => ["Increase the resource limit", "Profile and fix the leak"]
  | .configurationError => ["Review recent configuration changes"]
  | .externalDependencyFailure => ["Check the dependency status page", "Add retries"]
  | .codeDefect => ["Inspect recent deployments", "Roll back the last release"]

/-- Modelled from the spec: the confidence formula — base score per category,
`+1/20` for each corroborating finding in the same category, `+1/10` for each
critical-severity finding, capped at `99/100`. -/
def confidenceFor (c : Category) (g : List Finding) : ℚ :=
  min (baseScore c + (g.length - 1 : ℕ) * (1 / 20)
        + (g.filter (fun f => f.severity == Severity.critical)).length * (1 / 10))
      (99 / 100)

/-- Modelled from the spec: build the hypothesis for one causal category from
the findings classified into it. -/
def mkHypothesis (c : Category) (g : List Finding) : Hypothesis :=
  { statement := categoryStatement c
    confidence := confidenceFor c g
    supportingFindings := g
    recommendedActions := categoryActions c }

/-- The timestamp of the earliest supporting finding of a hypothesis. -/
def earliestSupport (h : Hypothesis) : Nat :=
  match h.supportingFindings with
  | [] => 0
  | f :: fs => fs.foldl (fun m g => min m g.timestamp) f.timestamp

/-- The ordering used on hypotheses: descending confidence, ties broken by
the earliest supporting-finding timestamp. -/
def hypBefore (a b : Hypothesis) : Prop :=
  b.confidence < a.confidence ∨
    (a.confidence = b.confidence ∧ earliestSupport a ≤ earliestSupport b)

instance : DecidableRel hypBefore := fun a b =>
  inferInstanceAs (Decidable (b.confidence < a.confidence ∨
    (a.confidence = b.confidence ∧ earliestSupport a ≤ earliestSupport b)))

instance : IsTotal Hypothesis hypBefore := by
  constructor
  intro a b
  rcases lt_trichotomy a.confidence b.confidence with h | h | h
  · exact Or.inr (Or.inl h)
  · rcases le_total (earliestSupport a) (earliestSupport b) with h2 | h2
    · exact Or.inl (Or.inr ⟨h, h2⟩)
    · exact Or.inr (Or.inr ⟨h.symm, h2⟩)
  · exact Or.inl (Or.inl h)

instance : IsTrans Hypothesis hypBefore := by
  constructor
  intro a b c hab hbc
  rcases hab with h1 | ⟨h1, e1⟩ <;> rcases hbc with h2 | ⟨h2, e2⟩
  · exact Or.inl (h2.trans h1)
  · exact Or.inl (h2 ▸ h1)
  · exact Or.inl (h1 ▸ h2)
  · exact Or.inr ⟨h1.trans h2, e1.trans e2⟩

/-- The list of all causal categories, in rule-table order. -/
def allCategories : List Category :=
  [.resourceExhaustion, .configurationError, .externalDependencyFailure, .codeDefect]

/-- Modelled from the spec: `rank(findings)` — groups findings by causal
category, scores each group, and returns the hypotheses ordered by descending
confidence with ties broken by earliest supporting-finding timestamp; fails
with `RankingError` when the findings set is empty. -/
def rank (findings : List Finding) : Except EngineError (List Hypothesis) :=
  if findings.isEmpty then
    .error .rankingError
  else
    let groups := allCategories.filterMap (fun c =>
      let g := findings.filter (fun f => classify f == c)
      if g.isEmpty then none else some (mkHypothesis c g))
    .ok (List.insertionSort hypBefore groups)

/-! ## Signal Correlator (§4.2) -/

/-- Modelled from the spec: a stub telemetry source, as in the spec's test
scenarios — it has a name and either produces findings or is unreachable
(`none`, e.g. a connection failure). -/
structure TelemetrySource where
  name : String
  result : Option (List Finding)
deriving DecidableEq, Repr

/-- The larger of two severities (`info < warning < critical`). -/
def sevMax (a b : Severity) : Severity :=
  match a, b with
  | .critical, _ => .critical
  | _, .critical => .critical
  | .warning, _ => .warning
  | _, .warning => .warning
  | .info, .info => .info

/-- Modelled from the spec: merge two findings describing the same anomaly:
evidence (source observation ids) is merged, the earliest timestamp and the
higher severity are kept. -/
def mergeFinding (a b : Finding) : Finding :=
  { a with
    sourceObs := a.sourceObs ++ b.sourceObs
    timestamp := min a.timestamp b.timestamp
    severity := sevMax a.severity b.severity }

/-- Modelled from the spec: deduplicate findings describing the same anomaly
(same resource and same anomaly class) into one finding with merged
evidence. -/
def dedupFindings (fs : List Finding) : List Finding :=
  fs.foldl (fun acc f =>
    if acc.any (fun g => g.resource == f.resource && g.ftype == f.ftype) then
      acc.map (fun g =>
        if g.resource == f.resource && g.ftype == f.ftype then mergeFinding g f else g)
    else acc ++ [f]) []

/-- Modelled from the spec: the start of the correlation window — a fixed
lookback margin of 10 minutes (600 seconds) before the earliest
observation. -/
def lookbackStart (obs : List Observation) : Nat :=
  (obs.map (fun o => o.timestamp)).foldr min 0 - 600

/-- The result of a (possibly degraded) successful correlation. -/
structure CorrelationResult where
  findings : List Finding
  degraded : Bool
  failedSources : List String
deriving DecidableEq, Repr

/-- Modelled from the spec: `correlate(observations)` against a set of
telemetry sources.  Findings from the sources that succeeded are merged and
deduplicated; failed source names are recorded under a `degraded` flag.  When
every source is unreachable the whole correlation fails with
`CorrelationError`.  (The stub sources carry their findings directly, so the
time window anchored to the observations does not influence them.) -/
def correlate (obs : List Observation) (sources : List TelemetrySource) :
    Except EngineError CorrelationResult :=
  if (sources.filter (fun s => s.result.isSome)).isEmpty then
    .error .correlationError
  else
    .ok { findings :=
            dedupFindings ((sources.filter (fun s => s.result.isSome)).flatMap
              (fun s => s.result.getD []))
          degraded := !(sources.filter (fun s => s.result.isNone)).isEmpty
          failedSources := (sources.filter (fun s => s.result.isNone)).map (fun s => s.name) }

/-! ## Investigation Controller (§4.3) -/

/-- Modelled from the spec: the transitions the state machine admits. -/
inductive Transition : InvState → InvState → Prop
  | createdCorrelating : Transition .created .correlating
  | correlatingRanking : Transition .correlating .ranking
  | correlatingError : Transition .correlating .error
  | rankingCompleted : Transition .ranking .completed
  | rankingError : Transition .ranking .error

/-- Modelled from the spec: a freshly created investigation. -/
def createInv (iid : Nat) (title : String) (seeds : List Observation) (now : Nat) :
    Investigation :=
  { id := iid, title := title, state := .created, observations := seeds
    findings := [], degraded := false, failedSources := [], hypotheses := []
    createdAt := now, updatedAt := now, errorCause := none }

/-- Modelled from the spec: one Controller-driven step of the lifecycle.
`CREATED` moves to `CORRELATING` once at least one observation exists;
`CORRELATING` attaches findings and moves to `RANKING` on (possibly degraded)
correlator success, or to `ERROR` on `CorrelationError` with the
findings-so-far discarded; `RANKING` attaches hypotheses and moves to
`COMPLETED`, or to `ERROR` on `RankingError`.  `COMPLETED` and `ERROR` are
terminal. -/
def stepInv (sources : List TelemetrySource) (now : Nat) (inv : Investigation) :
    Investigation :=
  match inv.state with
  | .created =>
      if inv.observations.isEmpty then inv
      else { inv with state := .correlating, updatedAt := now }
  | .correlating =>
      match correlate inv.observations sources with
      | .ok r =>
          { inv with
            state := .ranking
            findings := r.findings
            degraded := r.degraded
            failedSources := r.failedSources
            updatedAt := now }
      | .error e =>
          { inv with state := .error, errorCause := some e, findings := [], updatedAt := now }
  | .ranking =>
      match rank inv.findings with
      | .ok hs => { inv with state := .completed, hypotheses := hs, updatedAt := now }
      | .error e => { inv with state := .error, errorCause := some e, updatedAt := now }
  | .completed => inv
  | .error => inv

/-- Modelled from the spec: a full engine run — create an investigation from
seed observations (failing with `ValidationError` when they are empty) and
drive it through correlation and ranking to a terminal state. -/
def runInvestigation (title : String) (seeds : List Observation)
    (sources : List TelemetrySource) : Except EngineError Investigation :=
  if seeds.isEmpty then .error .validationError
  else
    .ok (stepInv sources 3 (stepInv sources 2 (stepInv sources 1 (createInv 0 title seeds 0))))

/-! ## Store-level public contract (§4.1, §4.3) -/

/-- The Controller's persistent state: all investigations it owns. -/
abbrev Store := List Investigation

/-- Look up an investigation by id. -/
def findInv (store : Store) (iid : Nat) : Option Investigation :=
  List.find? (fun inv => inv.id == iid) store

/-- Modelled from the spec: `create(title, seed-observations)`; fails with
`ValidationError` when `seed-observations` is empty, leaving the store
untouched; otherwise persists a fresh investigation and returns its id. -/
def createOp (store : Store) (title : String) (seeds : List Observation) (now : Nat) :
    Except EngineError Nat × Store :=
  if seeds.isEmpty then (.error .validationError, store)
  else (.ok store.length, store ++ [createInv store.length title seeds now])

/-- Modelled from the spec: `submit-observation(investigation-id, observation)`
— allowed only while in `CREATED`; fails with `InvalidStateError` once
correlation has begun and never affects stored state on failure. -/
def submitObservation (store : Store) (iid : Nat) (obs : Observation) :
    Except EngineError Unit × Store :=
  match findInv store iid with
  | none => (.error .validationError, store)
  | some inv =>
      if inv.state = InvState.created then
        (.ok (), store.map (fun j =>
          if j.id = iid then { j with observations := j.observations ++ [obs] } else j))
      else (.error .invalidStateError, store)

/-- Modelled from the spec: `get-status(investigation-id)` — never blocks,
returns the latest known state and `updated-at`, and performs no mutation. -/
def getStatus (store : Store) (iid : Nat) : Option (InvState × Nat) × Store :=
  ((findInv store iid).map (fun inv => (inv.state, inv.updatedAt)), store)

/-- Modelled from the spec: `get-result(investigation-id)` — returns the
investigation snapshot without mutating anything. -/
def getResult (store : Store) (iid : Nat) : Option Investigation × Store :=
  (findInv store iid, store)

end InvestigationEngine

namespace LeakApp

/-- One record pushed by the `/leak` handler of `app.js`:
`{ data: new Array(1000).fill('x').join(''), timestamp: new Date() }`. -/
structure LeakEntry where
  data : String
  timestamp : Nat
deriving DecidableEq, Repr

/-- The record pushed on each loop iteration: 1000 repetitions of `x` plus
the current time. -/
def leakEntry (t : Nat) : LeakEntry :=
  { data := String.mk (List.replicate 1000 'x'), timestamp := t }

/-- The `/leak` handler's loop: `n` iterations, each pushing one record onto
the array. -/
def leakLoop : Nat → Nat → List LeakEntry → List LeakEntry
  | 0, _, arr => arr
  | n + 1, t, arr => leakLoop n t (arr ++ [leakEntry t])

/-- The `GET /leak` handler: runs the loop 100000 times against the global
`memoryLeakArray`.  (The HTTP response text reports the process heap size,
an environment reading outside the model.) -/
def handleLeak (arr : List LeakEntry) (t : Nat) : List LeakEntry :=
  leakLoop 100000 t arr

/-- The `GET /` handler: sends a greeting and leaves `memoryLeakArray`
untouched. -/
def handleRoot (arr : List LeakEntry) : List LeakEntry :=
  arr

/-- The server's array state after a sequence of `/leak` requests at the
given times, starting from the initial empty `memoryLeakArray`. -/
def serverAfter (times : List Nat) : List LeakEntry :=
  times.foldl handleLeak []

end LeakApp

namespace InvestigationEngine

/-! ## Concrete fixtures, mirroring the spec's test scenarios (§8) -/

/-- A seed observation reporting a memory spike. -/
def obsA : Observation :=
  { id := 1, otype := .metricSnapshot, observer := .user, timestamp := 1000
    payload := "memory spike", resources := ["svc"] }

/-- A critical memory-limit finding on the service. -/
def fA : Finding :=
  { ftype := .memoryLimitExceeded, severity := .critical, resource := "svc"
    timestamp := 950, sourceObs := [1] }

/-- A warning-severity dependency finding. -/
def fB : Finding :=
  { ftype := .dependencyFailure, severity := .warning, resource := "db"
    timestamp := 900, sourceObs := [1] }

/-- A single healthy telemetry source. -/
def goodSources : List TelemetrySource := [⟨"metrics", some [fA, fB]⟩]

/-- Scenario 3: one healthy source and one unreachable source. -/
def mixedSources : List TelemetrySource := [⟨"metrics", some [fA]⟩, ⟨"logs", none⟩]

/-- All telemetry sources unreachable. -/
def badSources : List TelemetrySource := [⟨"metrics", none⟩, ⟨"logs", none⟩]

/-- The hypothesis the ranker produces from the single finding `fA`. -/
def hypA : Hypothesis := mkHypothesis .resourceExhaustion [fA]

/-- An already-completed investigation. -/
def invDone : Investigation := { createInv 7 "done" [obsA] 0 with state := .completed }

/-- Extract the investigation from a successful engine run (with a dummy
default for the failure case). -/
def okOr (x : Except EngineError Investigation) : Investigation :=
  match x with
  | .ok i => i
  | .error _ => createInv 0 "" [] 0

/-! ## Ranker lemmas -/

theorem rank_ok_sorted {fs : List Finding} {hs : List Hypothesis}
    (h : rank fs = .ok hs) : List.Sorted hypBefore hs := by
  unfold rank at h
  split at h
  · exact absurd h (by simp)
  · injection h with h
    exact h ▸ List.sorted_insertionSort hypBefore _

theorem rank_ok_mem {fs : List Finding} {hs : List Hypothesis}
    (h : rank fs = .ok hs) {x : Hypothesis} (hx : x ∈ hs) :
    ∃ c g, g ≠ [] ∧ x = mkHypothesis c g := by
  unfold rank at h
  split at h
  · exact absurd h (by simp)
  · injection h with h
    subst h
    rw [List.mem_insertionSort] at hx
    obtain ⟨c, _, hc⟩ := List.mem_filterMap.mp hx
    dsimp only at hc
    split at hc
    · exact absurd hc (by simp)
    · rename_i hne
      injection hc with hc
      exact ⟨c, _, List.isEmpty_eq_false.mp (Bool.of_not_eq_true hne), hc.symm⟩

theorem rank_nil : rank [] = .error .rankingError := rfl

theorem rank_ok_of_ne_nil {fs : List Finding} (h : fs ≠ []) :
    ∃ hs, rank fs = .ok hs := by
  unfold rank
  rw [if_neg (by simp [h])]
  exact ⟨_, rfl⟩

theorem rank_ok_ne_nil {fs : List Finding} {hs : List Hypothesis}
    (h : rank fs = .ok hs) : hs ≠ [] := by
  unfold rank at h
  split at h
  · exact absurd h (by simp)
  · rename_i hne
    obtain ⟨f0, fs0, rfl⟩ : ∃ a l, fs = a :: l := by
      cases fs with
      | nil => simp at hne
      | cons a l => exact ⟨a, l, rfl⟩
    injection h with h
    subst h
    intro hnil
    have hperm := List.perm_insertionSort hypBefore
      (allCategories.filterMap (fun c =>
        let g := (f0 :: fs0).filter (fun f => classify f == c)
        if g.isEmpty then none else some (mkHypothesis c g)))
    rw [hnil] at hperm
    have hgroups := (List.perm_nil).mp hperm.symm
    have hcat : classify f0 ∈ allCategories := by
      cases hcl : classify f0 <;> simp [allCategories]
    have := List.filterMap_eq_nil_iff.mp hgroups _ hcat
    dsimp only at this
    split at this
    · rename_i hemp
      have hmem : f0 ∈ (f0 :: fs0).filter (fun f => classify f == classify f0) :=
        List.mem_filter.mpr ⟨List.mem_cons_self f0 fs0, by simp⟩
      rw [List.isEmpty_eq_true.mp hemp] at hmem
      exact absurd hmem (List.not_mem_nil f0)
    · exact absurd this (by simp)

theorem confidenceFor_bounds (c : Category) (g : List Finding) :
    0 ≤ confidenceFor c g ∧ confidenceFor c g ≤ 99 / 100 := by
  constructor
  · have hb : 0 ≤ baseScore c := by cases c <;> norm_num [baseScore]
    have h1 : (0 : ℚ) ≤ ((g.length - 1 : ℕ) : ℚ) * (1 / 20) := by positivity
    have h2 : (0 : ℚ) ≤
        (((g.filter (fun f => f.severity == Severity.critical)).length : ℕ) : ℚ) * (1 / 10) := by
      positivity
    exact le_min (by linarith) (by norm_num)
  · exact min_le_right _ _

/-! ## Controller step lemmas -/

theorem stepInv_created (srcs : List TelemetrySource) (now : Nat) (inv : Investigation)
    (h : inv.state = .created) (h2 : inv.observations.isEmpty = false) :
    stepInv srcs now inv = { inv with state := .correlating, updatedAt := now } := by
  unfold stepInv
  rw [h, h2]
  rfl

theorem stepInv_correlating_ok (srcs : List TelemetrySource) (now : Nat) (inv : Investigation)
    (r : CorrelationResult) (h : inv.state = .correlating)
    (hc : correlate inv.observations srcs = .ok r) :
    stepInv srcs now inv =
      { inv with
        state := .ranking
        findings := r.findings
        degraded := r.degraded
        failedSources := r.failedSources
        updatedAt := now } := by
  unfold stepInv
  rw [h, hc]

theorem stepInv_correlating_err (srcs : List TelemetrySource) (now : Nat) (inv : Investigation)
    (e : EngineError) (h : inv.state = .correlating)
    (hc : correlate inv.observations srcs = .error e) :
    stepInv srcs now inv =
      { inv with state := .error, errorCause := some e, findings := [], updatedAt := now } := by
  unfold stepInv
  rw [h, hc]

theorem stepInv_ranking_ok (srcs : List TelemetrySource) (now : Nat) (inv : Investigation)
    (hs : List Hypothesis) (h : inv.state = .ranking) (hr : rank inv.findings = .ok hs) :
    stepInv srcs now inv = { inv with state := .completed, hypotheses := hs, updatedAt := now } := by
  unfold stepInv
  rw [h, hr]

theorem stepInv_ranking_err (srcs : List TelemetrySource) (now : Nat) (inv : Investigation)
    (e : EngineError) (h : inv.state = .ranking) (hr : rank inv.findings = .error e) :
    stepInv srcs now inv = { inv with state := .error, errorCause := some e, updatedAt := now } := by
  unfold stepInv
  rw [h, hr]

theorem stepInv_terminal (srcs : List TelemetrySource) (now : Nat) (inv : Investigation)
    (h : inv.state = .completed ∨ inv.state = .error) :
    stepInv srcs now inv = inv := by
  unfold stepInv
  rcases h with h | h <;> rw [h]

theorem correlate_error_eq (obs : List Observation) (srcs : List TelemetrySource)
    (e : EngineError) (h : correlate obs srcs = .error e) : e = .correlationError := by
  unfold correlate at h
  split at h
  · injection h with h
    exact h.symm
  · exact absurd h (by simp)

theorem rank_error_eq (fs : List Finding) (e : EngineError)
    (h : rank fs = .error e) : e = .rankingError := by
  unfold rank at h
  split at h
  · injection h with h
    exact h.symm
  · exact absurd h (by simp)

/-- Characterization of a full engine run: it either fails the empty-seed
validation, or reaches exactly one of the three terminal outcomes. -/
theorem run_ok_cases {t : String} {seeds : List Observation} {srcs : List TelemetrySource}
    {inv : Investigation} (h : runInvestigation t seeds srcs = .ok inv) :
    (∃ r hs, correlate seeds srcs = .ok r ∧ rank r.findings = .ok hs ∧
      inv.state = .completed ∧ inv.hypotheses = hs ∧ inv.findings = r.findings ∧
      inv.errorCause = none ∧ inv.observations = seeds) ∨
    (∃ r, correlate seeds srcs = .ok r ∧ rank r.findings = .error .rankingError ∧
      inv.state = .error ∧ inv.hypotheses = [] ∧
      inv.errorCause = some .rankingError ∧ inv.observations = seeds) ∨
    (correlate seeds srcs = .error .correlationError ∧
      inv.state = .error ∧ inv.hypotheses = [] ∧
      inv.errorCause = some .correlationError ∧ inv.observations = seeds) := by
  unfold runInvestigation at h
  split at h
  · exact absurd h (by simp)
  · rename_i hne
    injection h with h
    subst h
    have hne2 : (createInv 0 t seeds 0).observations.isEmpty = false := by
      simpa [createInv] using hne
    rw [stepInv_created srcs 1 (createInv 0 t seeds 0) rfl hne2]
    rcases hcor : correlate seeds srcs with e | r
    · obtain rfl := correlate_error_eq seeds srcs e hcor
      rw [stepInv_correlating_err srcs 2
        { createInv 0 t seeds 0 with state := .correlating, updatedAt := 1 }
        .correlationError rfl hcor]
      rw [stepInv_terminal srcs 3 _ (Or.inr rfl)]
      exact Or.inr (Or.inr ⟨rfl, rfl, rfl, rfl, rfl⟩)
    · rw [stepInv_correlating_ok srcs 2
        { createInv 0 t seeds 0 with state := .correlating, updatedAt := 1 } r rfl hcor]
      rcases hrank : rank r.findings with e | hs
      · obtain rfl := rank_error_eq r.findings e hrank
        rw [stepInv_ranking_err srcs 3
          { createInv 0 t seeds 0 with
            state := .ranking
            findings := r.findings
            degraded := r.degraded
            failedSources := r.failedSources
            updatedAt := 2 }
          .rankingError rfl hrank]
        exact Or.inr (Or.inl ⟨r, rfl, hrank, rfl, rfl, rfl, rfl⟩)
      · rw [stepInv_ranking_ok srcs 3
          { createInv 0 t seeds 0 with
            state := .ranking
            findings := r.findings
            degraded := r.degraded
            failedSources := r.failedSources
            updatedAt := 2 }
          hs rfl hrank]
        exact Or.inl ⟨r, hs, rfl, hrank, rfl, rfl, rfl, rfl, rfl⟩

theorem stepInv_created_empty (srcs : List TelemetrySource) (now : Nat) (inv : Investigation)
    (h : inv.state = .created) (h2 : inv.observations.isEmpty = true) :
    stepInv srcs now inv = inv := by
  unfold stepInv
  rw [h, h2]
  rfl

/-! ## Claim theorems -/

/-- C1: for every completed investigation produced by the engine, the
hypothesis list is ordered by descending confidence, with ties broken by the
earliest supporting-finding timestamp. -/
theorem run_completed_hypotheses_sorted (t : String) (seeds : List Observation)
    (srcs : List TelemetrySource) (inv : Investigation)
    (h : runInvestigation t seeds srcs = .ok inv) (hc : inv.state = .completed) :
    List.Pairwise (fun h1 h2 : Hypothesis =>
      h2.confidence ≤ h1.confidence ∧
      (h1.confidence = h2.confidence → earliestSupport h1 ≤ earliestSupport h2))
      inv.hypotheses := by
  rcases run_ok_cases h with ⟨r, hs, _, hrank, _, hhyp, _⟩ |
    ⟨r, _, _, hst, _⟩ | ⟨_, hst, _⟩
  · rw [hhyp]
    refine (rank_ok_sorted hrank).imp ?_
    intro a b hab
    rcases hab with hlt | ⟨heq, hts⟩
    · exact ⟨le_of_lt hlt, fun he => absurd (he ▸ hlt) (lt_irrefl _)⟩
    · exact ⟨le_of_eq heq.symm, fun _ => hts⟩
  · exact absurd (hst.symm.trans hc) (by decide)
  · exact absurd (hst.symm.trans hc) (by decide)

theorem run_completed_hypotheses_sorted_witness :
    List.Pairwise (fun h1 h2 : Hypothesis =>
      h2.confidence ≤ h1.confidence ∧
      (h1.confidence = h2.confidence → earliestSupport h1 ≤ earliestSupport h2))
      (okOr (runInvestigation "t" [obsA] goodSources)).hypotheses :=
  run_completed_hypotheses_sorted "t" [obsA] goodSources _ rfl rfl

/-- C2: one Controller step only ever performs the transitions
`CREATED→CORRELATING`, `CORRELATING→RANKING`, `CORRELATING→ERROR`,
`RANKING→COMPLETED`, `RANKING→ERROR` (or stays put), and the terminal states
`COMPLETED` and `ERROR` are absorbing. -/
theorem stepInv_admits_only_allowed (srcs : List TelemetrySource) (now : Nat)
    (inv : Investigation) :
    ((stepInv srcs now inv).state = inv.state ∨
      Transition inv.state (stepInv srcs now inv).state) ∧
    ((inv.state = .completed ∨ inv.state = .error) → stepInv srcs now inv = inv) := by
  refine ⟨?_, fun h => stepInv_terminal srcs now inv h⟩
  rcases hst : inv.state
  · rcases hobs : inv.observations.isEmpty
    · rw [stepInv_created srcs now inv hst hobs]
      exact Or.inr (hst ▸ Transition.createdCorrelating)
    · rw [stepInv_created_empty srcs now inv hst hobs]
      exact Or.inl hst
  · rcases hcor : correlate inv.observations srcs with e | r
    · rw [stepInv_correlating_err srcs now inv e hst hcor]
      exact Or.inr (hst ▸ Transition.correlatingError)
    · rw [stepInv_correlating_ok srcs now inv r hst hcor]
      exact Or.inr (hst ▸ Transition.correlatingRanking)
  · rcases hrank : rank inv.findings with e | hs
    · rw [stepInv_ranking_err srcs now inv e hst hrank]
      exact Or.inr (hst ▸ Transition.rankingError)
    · rw [stepInv_ranking_ok srcs now inv hs hst hrank]
      exact Or.inr (hst ▸ Transition.rankingCompleted)
  · rw [stepInv_terminal srcs now inv (Or.inl hst)]
    exact Or.inl hst
  · rw [stepInv_terminal srcs now inv (Or.inr hst)]
    exact Or.inl hst

theorem stepInv_admits_only_allowed_witness : stepInv goodSources 9 invDone = invDone :=
  (stepInv_admits_only_allowed goodSources 9 invDone).2 (Or.inl rfl)

/-- C3 counterexample: when all telemetry sources are unreachable the run ends
in `ERROR` with cause `CorrelationError` and an empty hypothesis list, so
"hypotheses is empty iff state == ERROR with RankingError" fails as stated. -/
theorem run_empty_iff_rankingError_cex :
    (okOr (runInvestigation "probe" [obsA] badSources)).state = .error ∧
    (okOr (runInvestigation "probe" [obsA] badSources)).errorCause =
      some EngineError.correlationError ∧
    (okOr (runInvestigation "probe" [obsA] badSources)).hypotheses = [] ∧
    ¬((okOr (runInvestigation "probe" [obsA] badSources)).hypotheses = [] ↔
      ((okOr (runInvestigation "probe" [obsA] badSources)).state = .error ∧
        (okOr (runInvestigation "probe" [obsA] badSources)).errorCause =
          some EngineError.rankingError)) := by
  refine ⟨rfl, rfl, rfl, fun hiff => ?_⟩
  exact absurd (hiff.mp rfl).2 (by decide)

/-- C3 (amended): `rank` produces at least one hypothesis whenever findings is
non-empty and fails with `RankingError` on empty findings; and for every
investigation produced by an engine run, the hypothesis list is empty iff the
state is `ERROR` (whether the cause is `CorrelationError` or `RankingError`),
non-empty whenever the state is `COMPLETED`, and empty whenever the error
cause is `RankingError`. -/
theorem rank_total_and_run_hypotheses_iff :
    (∀ fs : List Finding, fs ≠ [] → ∃ hs, rank fs = Except.ok hs ∧ hs ≠ []) ∧
    rank [] = Except.error EngineError.rankingError ∧
    (∀ t seeds srcs inv, runInvestigation t seeds srcs = Except.ok inv →
      ((inv.hypotheses = [] ↔ inv.state = .error) ∧
        (inv.state = .completed → inv.hypotheses ≠ []) ∧
        (inv.state = .error ∧ inv.errorCause = some EngineError.rankingError →
          inv.hypotheses = []))) := by
  refine ⟨?_, rfl, ?_⟩
  · intro fs h
    obtain ⟨hs, hhs⟩ := rank_ok_of_ne_nil h
    exact ⟨hs, hhs, rank_ok_ne_nil hhs⟩
  · intro t seeds srcs inv h
    rcases run_ok_cases h with ⟨r, hs, _, hrank, hst, hhyp, _⟩ |
      ⟨r, _, _, hst, hhyp, _⟩ | ⟨_, hst, hhyp, _⟩
    · have hne := rank_ok_ne_nil hrank
      refine ⟨⟨?_, ?_⟩, fun _ h0 => hne (hhyp.symm.trans h0), fun hc =>
        absurd (hst.symm.trans hc.1) (by decide)⟩
      · intro h0
        exact absurd (hhyp.symm.trans h0) hne
      · intro hErr
        exact absurd (hst.symm.trans hErr) (by decide)
    · exact ⟨⟨fun _ => hst, fun _ => hhyp⟩,
        fun hc => absurd (hst.symm.trans hc) (by decide), fun _ => hhyp⟩
    · exact ⟨⟨fun _ => hst, fun _ => hhyp⟩,
        fun hc => absurd (hst.symm.trans hc) (by decide), fun _ => hhyp⟩

theorem rank_total_and_run_hypotheses_iff_witness :
    (okOr (runInvestigation "w" [obsA] goodSources)).hypotheses = [] ↔
      (okOr (runInvestigation "w" [obsA] goodSources)).state = .error :=
  (rank_total_and_run_hypotheses_iff.2.2 "w" [obsA] goodSources _ rfl).1

theorem filter_isSome_ne_nil {srcs : List TelemetrySource}
    (h : ∃ s ∈ srcs, s.result.isSome) :
    (srcs.filter (fun s => s.result.isSome)).isEmpty = false := by
  obtain ⟨s, hs, hsome⟩ := h
  refine List.isEmpty_eq_false.mpr (fun h0 => ?_)
  have hmem : s ∈ srcs.filter (fun s => s.result.isSome) :=
    List.mem_filter.mpr ⟨hs, hsome⟩
  rw [h0] at hmem
  exact List.not_mem_nil s hmem

theorem correlate_ok_of_exists (obs : List Observation) (srcs : List TelemetrySource)
    (h : ∃ s ∈ srcs, s.result.isSome) :
    correlate obs srcs = Except.ok
      { findings := dedupFindings ((srcs.filter (fun s => s.result.isSome)).flatMap
          (fun s => s.result.getD []))
        degraded := !(srcs.filter (fun s => s.result.isNone)).isEmpty
        failedSources := (srcs.filter (fun s => s.result.isNone)).map (fun s => s.name) } := by
  unfold correlate
  rw [filter_isSome_ne_nil h]
  rfl

/-- C4: whenever at least one telemetry source succeeds, correlation succeeds,
returning the (merged) findings of the succeeding sources and recording the
failed source names under a `degraded` flag, and the investigation proceeds to
`RANKING`; `CorrelationError` is raised iff every source is unreachable. -/
theorem correlate_partial_failure_policy (obs : List Observation)
    (srcs : List TelemetrySource) :
    ((∃ s ∈ srcs, s.result.isSome) →
      ∃ r, correlate obs srcs = Except.ok r ∧
        r.findings = dedupFindings ((srcs.filter (fun s => s.result.isSome)).flatMap
          (fun s => s.result.getD [])) ∧
        r.failedSources = (srcs.filter (fun s => s.result.isNone)).map (fun s => s.name) ∧
        (r.degraded = true ↔ srcs.filter (fun s => s.result.isNone) ≠ [])) ∧
    (correlate obs srcs = Except.error EngineError.correlationError ↔
      ∀ s ∈ srcs, s.result = none) ∧
    (∀ now inv, inv.state = .correlating → (∃ s ∈ srcs, s.result.isSome) →
      (stepInv srcs now inv).state = .ranking) := by
  refine ⟨fun h => ⟨_, correlate_ok_of_exists obs srcs h, rfl, rfl, ?_⟩, ⟨?_, ?_⟩, ?_⟩
  · simp [List.isEmpty_eq_false]
  · intro h s hs
    unfold correlate at h
    split at h
    · rename_i hemp
      have hfil := List.isEmpty_iff.mp hemp
      have hns := List.filter_eq_nil_iff.mp hfil s hs
      exact Option.not_isSome_iff_eq_none.mp (by simpa using hns)
    · exact absurd h (by simp)
  · intro hall
    unfold correlate
    have hfil : srcs.filter (fun s => s.result.isSome) = [] :=
      List.filter_eq_nil_iff.mpr (fun s hs => by rw [hall s hs]; simp)
    rw [hfil]
    rfl
  · intro now inv hst hex
    rw [stepInv_correlating_ok srcs now inv _ hst
      (correlate_ok_of_exists inv.observations srcs hex)]

theorem correlate_partial_failure_policy_witness :
    (stepInv mixedSources 2
      { createInv 0 "w4" [obsA] 0 with state := .correlating }).state = .ranking :=
  (correlate_partial_failure_policy [obsA] mixedSources).2.2 2
    { createInv 0 "w4" [obsA] 0 with state := .correlating } rfl
    ⟨⟨"metrics", some [fA]⟩, List.mem_cons_self _ _, rfl⟩

/-- C5: once an investigation has left `CREATED`, `submit-observation` fails
with `InvalidStateError` and leaves the store (hence the observation sequence)
unchanged; a Controller step never touches the observation sequence; and every
stored investigation survives a `submit-observation` call with its original
observations as an unchanged prefix (append-only, nothing mutated or
removed). -/
theorem submit_only_in_created_append_only :
    (∀ (store : Store) iid obs inv, findInv store iid = some inv →
      inv.state ≠ .created →
      submitObservation store iid obs = (Except.error EngineError.invalidStateError, store)) ∧
    (∀ srcs now inv, (stepInv srcs now inv).observations = inv.observations) ∧
    (∀ (store : Store) iid obs j, j ∈ store →
      ∃ t, { j with observations := j.observations ++ t } ∈
        (submitObservation store iid obs).2) := by
  refine ⟨?_, ?_, ?_⟩
  · intro store iid obs inv hfind hne
    unfold submitObservation
    rw [hfind]
    dsimp only
    rw [if_neg hne]
  · intro srcs now inv
    rcases hst : inv.state
    · rcases hobs : inv.observations.isEmpty
      · rw [stepInv_created srcs now inv hst hobs]
      · rw [stepInv_created_empty srcs now inv hst hobs]
    · rcases hcor : correlate inv.observations srcs with e | r
      · rw [stepInv_correlating_err srcs now inv e hst hcor]
      · rw [stepInv_correlating_ok srcs now inv r hst hcor]
    · rcases hrank : rank inv.findings with e | hs
      · rw [stepInv_ranking_err srcs now inv e hst hrank]
      · rw [stepInv_ranking_ok srcs now inv hs hst hrank]
    · rw [stepInv_terminal srcs now inv (Or.inl hst)]
    · rw [stepInv_terminal srcs now inv (Or.inr hst)]
  · intro store iid obs j hj
    unfold submitObservation
    rcases hfind : findInv store iid with _ | inv
    · refine ⟨[], ?_⟩
      simp only [List.append_nil]
      exact hj
    · dsimp only
      by_cases hc : inv.state = InvState.created
      · rw [if_pos hc]
        by_cases hid : j.id = iid
        · refine ⟨[obs], List.mem_map.mpr ⟨j, hj, ?_⟩⟩
          rw [if_pos hid]
        · refine ⟨[], List.mem_map.mpr ⟨j, hj, ?_⟩⟩
          rw [if_neg hid, List.append_nil]
      · rw [if_neg hc]
        refine ⟨[], ?_⟩
        simp only [List.append_nil]
        exact hj

theorem submit_only_in_created_append_only_witness :
    submitObservation [invDone] 7 obsA =
      (Except.error EngineError.invalidStateError, [invDone]) :=
  submit_only_in_created_append_only.1 [invDone] 7 obsA invDone rfl (by decide)

/-- C6: every hypothesis the ranker produces has a confidence in [0, 1], and
the confidence formula is capped at 99/100 — the ranker never outputs a
confidence above 0.99. -/
theorem rank_confidence_in_range (fs : List Finding) (hs : List Hypothesis)
    (h : rank fs = .ok hs) :
    ∀ x ∈ hs, 0 ≤ x.confidence ∧ x.confidence ≤ 1 ∧ x.confidence ≤ 99 / 100 := by
  intro x hx
  obtain ⟨c, g, _, rfl⟩ := rank_ok_mem h hx
  obtain ⟨h0, h99⟩ := confidenceFor_bounds c g
  exact ⟨h0, le_trans h99 (by norm_num), h99⟩

theorem rank_confidence_in_range_witness :
    0 ≤ hypA.confidence ∧ hypA.confidence ≤ 1 ∧ hypA.confidence ≤ 99 / 100 :=
  rank_confidence_in_range [fA] [hypA] rfl hypA (List.mem_singleton.mpr rfl)

/-- C7: `create` with an empty seed-observation list fails with
`ValidationError`, and every failing `create` or `submit-observation` call
returns its error synchronously with the stored state unchanged. -/
theorem create_validation_error_atomicity :
    (∀ (store : Store) title now,
      createOp store title [] now = (Except.error EngineError.validationError, store)) ∧
    (∀ (store : Store) title seeds now e,
      (createOp store title seeds now).1 = Except.error e →
      (createOp store title seeds now).2 = store) ∧
    (∀ (store : Store) iid obs e,
      (submitObservation store iid obs).1 = Except.error e →
      (submitObservation store iid obs).2 = store) := by
  refine ⟨fun store title now => rfl, ?_, ?_⟩
  · intro store title seeds now e h
    unfold createOp at h ⊢
    split at h
    · rename_i hemp
      rw [if_pos hemp]
    · exact absurd h (by simp)
  · intro store iid obs e h
    unfold submitObservation at h ⊢
    rcases hfind : findInv store iid with _ | inv
    · rfl
    · rw [hfind] at h
      dsimp only at h ⊢
      by_cases hc : inv.state = InvState.created
      · rw [if_pos hc] at h
        exact absurd h (by simp)
      · rw [if_neg hc]

theorem create_validation_error_atomicity_witness :
    (createOp [] "t7" [] 0).2 = ([] : Store) :=
  create_validation_error_atomicity.2.1 [] "t7" [] 0 EngineError.validationError rfl

/-- C8: on a terminal investigation, `get-status` and `get-result` mutate
nothing and repeated calls return identical output. -/
theorem terminal_get_idempotent (store : Store) (iid : Nat) (inv : Investigation)
    (hfind : findInv store iid = some inv)
    (hterm : inv.state = .completed ∨ inv.state = .error) :
    (getStatus store iid).2 = store ∧
    (getResult store iid).2 = store ∧
    (getStatus (getStatus store iid).2 iid).1 = (getStatus store iid).1 ∧
    (getResult (getResult store iid).2 iid).1 = (getResult store iid).1 ∧
    (getStatus store iid).1 = some (inv.state, inv.updatedAt) ∧
    (getResult store iid).1 = some inv := by
  refine ⟨rfl, rfl, rfl, rfl, ?_, ?_⟩ <;> simp [getStatus, getResult, hfind]

theorem terminal_get_idempotent_witness :
    (getStatus [invDone] 7).2 = [invDone] ∧
    (getResult [invDone] 7).2 = [invDone] ∧
    (getStatus (getStatus [invDone] 7).2 7).1 = (getStatus [invDone] 7).1 ∧
    (getResult (getResult [invDone] 7).2 7).1 = (getResult [invDone] 7).1 ∧
    (getStatus [invDone] 7).1 = some (invDone.state, invDone.updatedAt) ∧
    (getResult [invDone] 7).1 = some invDone :=
  terminal_get_idempotent [invDone] 7 invDone rfl (Or.inl rfl)

/-- C9: the ranker (and the whole engine run) is deterministic — identical
findings produce identical hypotheses, confidences, grouping and ordering. -/
theorem rank_deterministic :
    (∀ fs1 fs2 : List Finding, fs1 = fs2 → rank fs1 = rank fs2) ∧
    (∀ t (seeds1 seeds2 : List Observation) srcs, seeds1 = seeds2 →
      runInvestigation t seeds1 srcs = runInvestigation t seeds2 srcs) :=
  ⟨fun _ _ h => h ▸ rfl, fun _ _ _ _ h => h ▸ rfl⟩

theorem rank_deterministic_witness : rank [fA] = rank [fA] :=
  rank_deterministic.1 [fA] [fA] rfl

end InvestigationEngine


namespace LeakApp

theorem leakLoop_eq (n t : Nat) : ∀ arr, leakLoop n t arr = arr ++ List.replicate n (leakEntry t) := by
  induction n with
  | zero =>
      intro arr
      simp [leakLoop]
  | succ n ih =>
      intro arr
      show leakLoop n t (arr ++ [leakEntry t]) = _
      rw [ih, List.append_assoc]
      rfl

/-- C10: the global `memoryLeakArray` is append-only — each `/leak` request
appends exactly 100000 records and no handler removes or replaces elements,
so after `n` `/leak` requests the array holds exactly `100000 * n`
records. -/
theorem memoryLeakArray_append_only_growth :
    (∀ arr t, handleLeak arr t = arr ++ List.replicate 100000 (leakEntry t)) ∧
    (∀ arr t, (handleLeak arr t).length = arr.length + 100000) ∧
    (∀ arr, handleRoot arr = arr) ∧
    (∀ times : List Nat, (serverAfter times).length = 100000 * times.length) := by
  have hloop : ∀ arr t, handleLeak arr t = arr ++ List.replicate 100000 (leakEntry t) :=
    fun arr t => leakLoop_eq 100000 t arr
  refine ⟨hloop, fun arr t => ?_, fun arr => rfl, ?_⟩
  · rw [hloop, List.length_append, List.length_replicate]
  · have key : ∀ (times : List Nat) (arr : List LeakEntry),
        (times.foldl handleLeak arr).length = arr.length + 100000 * times.length := by
      intro times
      induction times with
      | nil =>
          intro arr
          simp
      | cons t ts ih =>
          intro arr
          rw [List.foldl_cons, ih, hloop, List.length_append, List.length_replicate,
            List.length_cons]
          ring
    intro times
    rw [serverAfter, key times []]
    simp

end LeakApp
